import Mathlib

/-!
# PythonPluginEngine: plugin lifecycle

A shallow embedding of `src/core/PythonPluginEngine.cpp`: `loadPlugin`, `unloadPlugin`,
`backupEntry`, `resumeEntry` and `getCallingPlugin`.

The engine talks to four things it does not own: the Python interpreter, the file system,
the three script registries and the logger.  They are part of an explicit `World`:

* the file system is a map from paths to file contents;
* `sys.path` is a list of strings;
* `mPluginModules` and `mModuleEntrys` are the two caches of the engine;
* the registries are lists of entries tagged with the id of the owning plugin;
* the log is the list of lines written so far;
* `events` records, in order, every call that leaves the engine.

Python code is opaque.  An `Env` says, for each call into the interpreter or into a registry,
whether that call raises; what a plugin does to the file system, to `sys.path` or to the
registries while it runs is outside the model.
-/

namespace PythonPluginEngine

/-! ## Strings -/

/-- Worker of `ReplaceStr` on character lists.  The counter is the number of characters of
the occurrence just replaced that are still to be skipped. -/
def replaceGo (old new : List Char) : Nat → List Char → List Char
  | _, [] => []
  | k + 1, _ :: cs => replaceGo old new k cs
  | 0, c :: cs =>
    if old.isPrefixOf (c :: cs) then new ++ replaceGo old new (old.length - 1) cs
    else c :: replaceGo old new 0 cs

/-- Modelled from the spec: `utils::ReplaceStr` (declared in `api/utils/StringUtils.hpp`) is
not among the sources.  The engine uses it to "strip" the extension, to "strip" the
plugins-root prefix and to "replace path separators with the module-name separator"; one
function does all three only if it replaces every occurrence of `oldValue`, so that is what
is modelled: occurrences are found left to right, and the search resumes behind the text just
inserted.  An empty `oldValue` (never passed by the engine) leaves the string alone. -/
def ReplaceStr (str oldValue newValue : String) : String :=
  if oldValue.data = [] then str else ⟨replaceGo oldValue.data newValue.data 0 str.data⟩

/-- Worker of `find`: index of the first position of the list, counted from `i`, at which
`pat` starts. -/
def findGo (pat : List Char) : List Char → Nat → Option Nat
  | [], _ => none
  | c :: cs, i => if pat.isPrefixOf (c :: cs) then some i else findGo pat cs (i + 1)

/-- The call `std::string::find(pat)` for a non-empty `pat`; `none` is `npos`. -/
def find (s pat : String) : Option Nat := findGo pat.data s.data 0

/-- The call `std::string::erase(pos)`: everything from `pos` on is dropped. -/
def erase (s : String) (pos : Nat) : String := ⟨s.data.take pos⟩

/-- The call `std::filesystem::path::parent_path` on a path in generic format (separator
`/`): the file name and the separators before it are dropped; the parent of a file in the
root directory is the root. -/
def parent_path (p : String) : String :=
  let r := p.data.reverse.dropWhile (fun c => c != '/')
  let q := (r.dropWhile (fun c => c == '/')).reverse
  if q = [] ∧ r ≠ [] then "/" else ⟨q⟩

/-! ## The world around the engine -/

/-- What a `try` block of the engine can catch: an exception derived from `std::exception`
(Python errors arrive as `py::error_already_set`, file system errors as
`std::filesystem::filesystem_error`), or anything else. -/
inductive Exc where
  | std (what : String)
  | unknown
  deriving DecidableEq, Repr

/-- Severity of a log line. -/
inductive Level where
  | info
  | error
  deriving DecidableEq, Repr

/-- One line handed to the logger: severity, message key and arguments. -/
structure LogEntry where
  level : Level
  key : String
  args : List String
  deriving DecidableEq, Repr

/-- A `py::module` handle: the name of the imported module, or `none` for the null handle
that `operator[]` default-constructs. -/
abbrev PyModule := Option String

/-- The three script registries.  Every entry is a pair of the owning plugin id and a name. -/
structure Registries where
  listeners : List (String × String)
  tasks : List (String × String)
  commands : List (String × String)
  deriving DecidableEq, Repr

/-- A call that leaves the engine.  `onDisable` also records the registries as they were
when the hook was entered. -/
inductive Event where
  | removePluginListeners (plugin : String)
  | removePluginTasks (plugin : String)
  | removePluginCommands (plugin : String)
  | gilAcquire
  | gilRelease
  | system (cmd : String)
  | pyImport (name : String)
  | pyReload (m : PyModule)
  | onEnable (m : PyModule)
  | onDisable (m : PyModule) (regs : Registries)
  | fsRemove (p : String)
  | fsCopy (src dst : String)
  | fsWrite (p content : String)
  deriving DecidableEq, Repr

/-- Everything the engine reads or changes. -/
structure World where
  fs : String → Option String
  sysPath : List String
  mPluginModules : String → Option PyModule
  mModuleEntrys : String → Option String
  regs : Registries
  gil : Nat
  log : List LogEntry
  events : List Event

/-- The behaviour of the collaborators.  A Python call answers `some msg` when it raises
(the message of the `py::error_already_set`), a registry call answers `some e` when it
throws `e`; `none` is a normal return. -/
structure Env where
  importModule : World → String → Option String
  reload : World → PyModule → Option String
  onEnable : World → PyModule → Option String
  onDisable : World → PyModule → Option String
  removeListenersThrows : World → String → Option Exc
  removeTasksThrows : World → String → Option Exc
  removeCommandsThrows : World → String → Option Exc

/-- Result of a statement inside a `try` block: the world after it, or the exception thrown
together with the world at the throw. -/
abbrev Try := Except (Exc × World) World

/-- Statement sequencing inside a `try` block: when `t` throws, what follows is skipped. -/
def andThen (t : Try) (f : World → Try) : Try :=
  match t with
  | Except.error e => Except.error e
  | Except.ok w => f w

/-- Append one event. -/
def emit (w : World) (e : Event) : World := { w with events := w.events ++ [e] }

/-- The call `getLogger().info(key, args)`. -/
def logInfo (w : World) (key : String) (args : List String) : World :=
  { w with log := w.log ++ [⟨Level.info, key, args⟩] }

/-- The call `getLogger().error(key, args)`. -/
def logError (w : World) (key : String) (args : List String) : World :=
  { w with log := w.log ++ [⟨Level.error, key, args⟩] }

/-- Construction of a `py::gil_scoped_acquire`. -/
def gilAcquire (w : World) : World := { emit w Event.gilAcquire with gil := w.gil + 1 }

/-- Leaving the `try` block entered in world `w0`: a `py::gil_scoped_acquire` constructed
inside it is destroyed, on normal exit and during unwinding alike. -/
def scopeExit (w0 w : World) : World :=
  if w0.gil < w.gil then { emit w Event.gilRelease with gil := w0.gil } else w

/-! ## File system -/

/-- The call `std::filesystem::exists`. -/
def fsExists (w : World) (p : String) : Bool := (w.fs p).isSome

/-- The call `std::filesystem::remove`: removing a missing file is not an error. -/
def fsRemove (w : World) (p : String) : World :=
  { emit w (Event.fsRemove p) with fs := fun q => if q = p then none else w.fs q }

/-- The calls `std::filesystem::copy` and `std::filesystem::copy_file` on a regular file
with default options: a missing source and an existing target are errors. -/
def fsCopy (w : World) (src dst : String) : Try :=
  let w1 := emit w (Event.fsCopy src dst)
  match w.fs src with
  | none => Except.error (Exc.std "filesystem error: cannot copy: No such file or directory", w1)
  | some c =>
    if (w.fs dst).isSome then
      Except.error (Exc.std "filesystem error: cannot copy: File exists", w1)
    else Except.ok { w1 with fs := fun q => if q = dst then some c else w.fs q }

/-- Modelled from the spec: `utils::writeFile` (declared in `api/utils/FileUtils.hpp`) is not
among the sources.  The backup step "overwrites the entry file with empty content"; over a
map from paths to contents the file holds exactly `content` afterwards, whether or not it
existed. -/
def writeFile (w : World) (p content : String) : World :=
  { emit w (Event.fsWrite p content) with fs := fun q => if q = p then some content else w.fs q }

/-- The engine's `backupEntry`. -/
def backupEntry (w : World) (entry : String) : Try :=
  let newPath := entry ++ ".bak"
  let w1 := if fsExists w newPath then fsRemove w newPath else w
  andThen (if fsExists w1 entry then fsCopy w1 entry newPath else Except.ok w1) fun w2 =>
  Except.ok (writeFile w2 entry "")

/-- The engine's `resumeEntry`. -/
def resumeEntry (w : World) (entry : String) : Try :=
  let newPath := entry ++ ".bak"
  if fsExists w entry then
    andThen (fsCopy (fsRemove w entry) newPath entry) fun w2 =>
    Except.ok (fsRemove w2 newPath)
  else Except.ok w

/-! ## Registries -/

/-- Drop every entry tagged `plugin`. -/
def untag (plugin : String) (l : List (String × String)) : List (String × String) :=
  l.filter (fun e => e.1 != plugin)

/-- Modelled from the spec: `ScriptEventBusImpl::removePluginListeners` (declared in
`api/EventDispatcher.hpp`) is not among the sources; it is the event bus's "remove all
listeners for plugin id".  A call that throws leaves the registry as it was. -/
def removePluginListeners (env : Env) (w : World) (plugin : String) : Try :=
  let w1 := emit w (Event.removePluginListeners plugin)
  match env.removeListenersThrows w plugin with
  | some e => Except.error (e, w1)
  | none => Except.ok { w1 with regs := { w.regs with listeners := untag plugin w.regs.listeners } }

/-- Modelled from the spec: `ScriptSchedule::removePluginTasks` (declared in
`api/Schedule.hpp`) is not among the sources; it is the scheduler's "remove all tasks for
plugin id".  A call that throws leaves the registry as it was. -/
def removePluginTasks (env : Env) (w : World) (plugin : String) : Try :=
  let w1 := emit w (Event.removePluginTasks plugin)
  match env.removeTasksThrows w plugin with
  | some e => Except.error (e, w1)
  | none => Except.ok { w1 with regs := { w.regs with tasks := untag plugin w.regs.tasks } }

/-- Modelled from the spec: `ScriptCommandManager::removePluginCommands` (declared in
`api/CommandRegistry.hpp`) is not among the sources; it is the command registry's "remove
all commands for plugin id".  A call that throws leaves the registry as it was. -/
def removePluginCommands (env : Env) (w : World) (plugin : String) : Try :=
  let w1 := emit w (Event.removePluginCommands plugin)
  match env.removeCommandsThrows w plugin with
  | some e => Except.error (e, w1)
  | none => Except.ok { w1 with regs := { w.regs with commands := untag plugin w.regs.commands } }

/-- No entry of any registry is tagged `plugin`. -/
def Registries.free (r : Registries) (plugin : String) : Prop :=
  (∀ e ∈ r.listeners, e.1 ≠ plugin) ∧ (∀ e ∈ r.tasks, e.1 ≠ plugin) ∧
    (∀ e ∈ r.commands, e.1 ≠ plugin)

/-! ## Interpreter -/

/-- The call `py::module::import(name)`. -/
def pyImport (env : Env) (w : World) (name : String) : Try :=
  let w1 := emit w (Event.pyImport name)
  match env.importModule w name with
  | some msg => Except.error (Exc.std msg, w1)
  | none => Except.ok w1

/-- The call `importlib.reload(m)`. -/
def pyReload (env : Env) (w : World) (m : PyModule) : Try :=
  let w1 := emit w (Event.pyReload m)
  match env.reload w m with
  | some msg => Except.error (Exc.std msg, w1)
  | none => Except.ok w1

/-- The call `m.attr("on_enable")()`. -/
def callOnEnable (env : Env) (w : World) (m : PyModule) : Try :=
  let w1 := emit w (Event.onEnable m)
  match env.onEnable w m with
  | some msg => Except.error (Exc.std msg, w1)
  | none => Except.ok w1

/-- The call `m.attr("on_disable")()`. -/
def callOnDisable (env : Env) (w : World) (m : PyModule) : Try :=
  let w1 := emit w (Event.onDisable m w.regs)
  match env.onDisable w m with
  | some msg => Except.error (Exc.std msg, w1)
  | none => Except.ok w1

/-- The call `sys.path.append(p)`. -/
def sysPathAppend (w : World) (p : String) : World := { w with sysPath := w.sysPath ++ [p] }

/-- The call `sys.path.remove(p)`: the first element equal to `p` goes; Python raises
`ValueError` when there is none. -/
def sysPathRemove (w : World) (p : String) : Try :=
  if p ∈ w.sysPath then Except.ok { w with sysPath := w.sysPath.erase p }
  else Except.error (Exc.std "ValueError: list.remove(x): x not in list", w)

/-- Read access `mPluginModules[plugin]`: a missing key is inserted with the null handle. -/
def modulesAt (w : World) (plugin : String) : PyModule × World :=
  match w.mPluginModules plugin with
  | some m => (m, w)
  | none =>
    (none, { w with mPluginModules := fun k => if k = plugin then some none else w.mPluginModules k })

/-- Read access `mModuleEntrys[plugin]`: a missing key is inserted with the empty path. -/
def entrysAt (w : World) (plugin : String) : String × World :=
  match w.mModuleEntrys plugin with
  | some p => (p, w)
  | none =>
    ("", { w with mModuleEntrys := fun k => if k = plugin then some "" else w.mModuleEntrys k })

/-! ## The engine -/

/-- The module name `loadPlugin` builds from the entry path (lines 48 to 51). -/
def moduleNameOf (entry : String) : String :=
  ReplaceStr (ReplaceStr (ReplaceStr entry ".py" "") "./" "") "/" "."

/-- The part of `loadPlugin` that imports or reloads the module (lines 53 to 64). -/
def importOrReload (env : Env) (w : World) (plugin entry moduleName : String) : Try :=
  if !(w.mPluginModules plugin).isSome then
    andThen (pyImport env w moduleName) fun w1 =>
      Except.ok { w1 with
        mPluginModules := fun k => if k = plugin then some (some moduleName) else w1.mPluginModules k
        mModuleEntrys := fun k => if k = plugin then some entry else w1.mModuleEntrys k }
  else
    pyReload env (modulesAt w plugin).2 (modulesAt w plugin).1

/-- The head of the `try` block of `loadPlugin` (lines 35 to 46): the lock is taken, the
requirements of the plugin are installed when it lists any, and the parent directory of the
entry is appended to `sys.path`. -/
def loadPrologue (w0 : World) (plugin entry : String) : World :=
  let w1 := logInfo (gilAcquire w0) "engine.python.plugin.loading" [plugin]
  let requirePath := "./plugins/" ++ plugin ++ "/requirements.txt"
  let w2 :=
    if fsExists w1 requirePath then
      emit (logInfo w1 "engine.python.plugin.pip.loading" [plugin])
        (Event.system ("pip install -r " ++ requirePath ++ " >NUL 2>&1"))
    else w1
  sysPathAppend w2 (parent_path entry)

/-- The `try` block of `loadPlugin`. -/
def loadBody (env : Env) (plugin entry : String) (w0 : World) : Try :=
  let w3 := loadPrologue w0 plugin entry
  let moduleName := moduleNameOf entry
  andThen (importOrReload env w3 plugin entry moduleName) fun w4 =>
  andThen (callOnEnable env (modulesAt w4 plugin).2 (modulesAt w4 plugin).1) fun w5 =>
  andThen (sysPathRemove w5 (parent_path entry)) fun w6 =>
  Except.ok (logInfo w6 "engine.python.plugin.loaded" [plugin])

/-- The engine's `loadPlugin`: the result and the world it leaves. -/
def loadPlugin (env : Env) (w0 : World) (plugin entry : String) : Bool × World :=
  match loadBody env plugin entry w0 with
  | Except.ok w => (true, scopeExit w0 w)
  | Except.error (Exc.std what, w) =>
    (false, logError (scopeExit w0 w) "engine.python.plugin.load.exception" [plugin, what])
  | Except.error (Exc.unknown, w) =>
    (false, logError (scopeExit w0 w) "engine.python.plugin.load.unknownException" [plugin])

/-- The three registry calls at the head of `unloadPlugin` (lines 83 to 85). -/
def retract (env : Env) (w : World) (plugin : String) : Try :=
  andThen (removePluginListeners env w plugin) fun w1 =>
  andThen (removePluginTasks env w1 plugin) fun w2 =>
  removePluginCommands env w2 plugin

/-- The part of `unloadPlugin` behind the registry calls (lines 87 to 100). -/
def disableAndNeutralize (env : Env) (w : World) (plugin : String) : Try :=
  let w1 := gilAcquire w
  andThen (callOnDisable env (modulesAt w1 plugin).2 (modulesAt w1 plugin).1) fun w2 =>
  andThen (backupEntry (entrysAt w2 plugin).2 (entrysAt w2 plugin).1) fun w3 =>
  andThen (pyReload env (modulesAt w3 plugin).2 (modulesAt w3 plugin).1) fun w4 =>
  andThen (resumeEntry w4 (entrysAt w2 plugin).1) fun w5 =>
  Except.ok (logInfo w5 "engine.python.plugin.unloaded" [plugin])

/-- The `try` block of `unloadPlugin`. -/
def unloadBody (env : Env) (plugin : String) (w0 : World) : Try :=
  andThen (retract env (logInfo w0 "engine.python.plugin.unloading" [plugin]) plugin) fun w1 =>
  disableAndNeutralize env w1 plugin

/-- The engine's `unloadPlugin`: the result and the world it leaves. -/
def unloadPlugin (env : Env) (w0 : World) (plugin : String) : Bool × World :=
  match unloadBody env plugin w0 with
  | Except.ok w => (true, scopeExit w0 w)
  | Except.error (Exc.std what, w) =>
    (false, logError (scopeExit w0 w) "engine.python.plugin.unload.exception" [plugin, what])
  | Except.error (Exc.unknown, w) =>
    (false, logError (scopeExit w0 w) "engine.python.plugin.unload.unknownException" [plugin])

/-- One entry of `inspect.stack()`: the file name of the frame's code object. -/
structure FrameInfo where
  co_filename : String
  deriving DecidableEq, Repr

/-- The call `inspect.stack()` made from native code (lines 134 and 135).  `frames` are the
Python frames active at the call, innermost first.  The answer holds one record for each of
them; with no Python frame active Python raises `ValueError`, which reaches the caller as a
`py::error_already_set`. -/
def inspectStack (frames : List FrameInfo) : Except Exc (List FrameInfo) :=
  match frames with
  | [] => Except.error (Exc.std "ValueError: call stack is not deep enough")
  | f :: fs => Except.ok (f :: fs)

/-- The engine's `getCallingPlugin`.  `parentPath` is the value of the function's static
`std::filesystem::absolute("./plugins/").string()`, which depends on the working directory;
`frames` are the Python frames active at the call, innermost first.  The function has no
`try` block: an error raised by `inspect.stack()` leaves it. -/
def getCallingPlugin (parentPath : String) (frames : List FrameInfo) :
    Except Exc (Option String) :=
  match inspectStack frames with
  | Except.error e => Except.error e
  | Except.ok trace =>
    match trace with
    | [] => Except.ok none
    | frame_info :: _ =>
      let pluginName := ReplaceStr frame_info.co_filename parentPath ""
      let pos := match find pluginName "/" with
        | some i => some i
        | none => find pluginName "\\"
      match pos with
      | some i => Except.ok (some (erase pluginName i))
      | none => Except.ok (some pluginName)

/-- Collaborators that never fail. -/
def calmEnv : Env where
  importModule := fun _ _ => none
  reload := fun _ _ => none
  onEnable := fun _ _ => none
  onDisable := fun _ _ => none
  removeListenersThrows := fun _ _ => none
  removeTasksThrows := fun _ _ => none
  removeCommandsThrows := fun _ _ => none

/-- A world with nothing in it. -/
def emptyWorld : World where
  fs := fun _ => none
  sysPath := []
  mPluginModules := fun _ => none
  mModuleEntrys := fun _ => none
  regs := ⟨[], [], []⟩
  gil := 0
  log := []
  events := []

/-! ## Auxiliary notions and sample worlds -/

/-- The world a statement leaves, whether it returned or threw. -/
def worldOf : Try → World
  | Except.ok w => w
  | Except.error (_, w) => w

/-- The three registry calls for `plugin`, cut behind the `k`-th. -/
def retractCalls (plugin : String) (k : Nat) : List Event :=
  [Event.removePluginListeners plugin, Event.removePluginTasks plugin,
    Event.removePluginCommands plugin].take k

/-- The registries with every entry of `plugin` dropped. -/
def Registries.untagged (r : Registries) (plugin : String) : Registries :=
  ⟨untag plugin r.listeners, untag plugin r.tasks, untag plugin r.commands⟩

/-- The later world has the registries and the lock count of the earlier one, and its
events as a prefix. -/
def Grows (w w' : World) : Prop :=
  w'.regs = w.regs ∧ w'.gil = w.gil ∧ ∃ rest, w'.events = w.events ++ rest

/-- Everything but the registries and the events is the same in both worlds. -/
def SameStore (w w' : World) : Prop :=
  w'.fs = w.fs ∧ w'.gil = w.gil ∧ w'.log = w.log ∧ w'.sysPath = w.sysPath ∧
    w'.mPluginModules = w.mPluginModules ∧ w'.mModuleEntrys = w.mModuleEntrys

/-- A world with one loaded plugin `alpha`, entries of `alpha` and `beta` in the registries,
the entry file of `alpha` on disk and a stale backup next to it. -/
def busyWorld : World where
  fs := fun p =>
    if p = "plugins/alpha/main.py" then some "def on_enable(): pass"
    else if p = "plugins/alpha/main.py.bak" then some "stale"
    else none
  sysPath := ["lib"]
  mPluginModules := fun k => if k = "alpha" then some (some "plugins.alpha.main") else none
  mModuleEntrys := fun k => if k = "alpha" then some "plugins/alpha/main.py" else none
  regs := ⟨[("alpha", "on_message")], [("alpha", "tick"), ("beta", "tock")], [("alpha", "hello")]⟩
  gil := 0
  log := []
  events := []

/-- Collaborators among which the event bus throws. -/
def listenersThrowEnv : Env :=
  { calmEnv with removeListenersThrows := fun _ _ => some (Exc.std "bus is down") }

/-- A world in which `alpha` is not loaded yet: its entry file and a stale backup are on
disk. -/
def freshWorld : World :=
  { busyWorld with mPluginModules := fun _ => none, mModuleEntrys := fun _ => none }

/-- Collaborators among which the `on_disable` hook raises. -/
def disableRaisesEnv : Env :=
  { calmEnv with onDisable := fun _ _ => some "RuntimeError: teardown failed" }

/-- The segments joined by `sep`. -/
def joinSegs (sep : Char) : List String → List Char
  | [] => []
  | [s] => s.data
  | s :: t :: ts => s.data ++ sep :: joinSegs sep (t :: ts)

/-- A world in which `alpha` is loaded and its entry file has been deleted from the disk. -/
def missingEntryWorld : World :=
  { busyWorld with fs := fun _ => none }

/-- Collaborators among which the import of the entry module raises. -/
def importRaisesEnv : Env :=
  { calmEnv with importModule := fun _ _ => some "ModuleNotFoundError: No module named 'requests'" }

/-- Collaborators among which the `on_enable` hook raises. -/
def enableRaisesEnv : Env :=
  { calmEnv with onEnable := fun _ _ => some "RuntimeError: setup failed" }

/-! ## Frame lemmas -/

@[simp] theorem andThen_ok (w : World) (f : World → Try) : andThen (Except.ok w) f = f w := rfl

@[simp] theorem andThen_error (e : Exc × World) (f : World → Try) :
    andThen (Except.error e) f = Except.error e := rfl

theorem andThen_eq_ok {t : Try} {f : World → Try} {w : World} (h : andThen t f = Except.ok w) :
    ∃ w1, t = Except.ok w1 ∧ f w1 = Except.ok w := by
  cases t with
  | error e => simp at h
  | ok w1 => exact ⟨w1, rfl, h⟩

theorem untag_free (plugin : String) (l : List (String × String)) :
    ∀ e ∈ untag plugin l, e.1 ≠ plugin := by
  intro e he
  simpa [untag] using (List.mem_filter.mp he).2

theorem untagged_free (r : Registries) (plugin : String) : (r.untagged plugin).free plugin :=
  ⟨untag_free _ _, untag_free _ _, untag_free _ _⟩

theorem scopeExit_same (w0 w : World) (h : w.gil = w0.gil) : scopeExit w0 w = w := by
  simp [scopeExit, h]

theorem scopeExit_held (w0 w : World) (h : w0.gil < w.gil) :
    scopeExit w0 w = { emit w Event.gilRelease with gil := w0.gil } := by
  simp [scopeExit, h]

theorem scopeExit_frame (w0 w : World) :
    (scopeExit w0 w).fs = w.fs ∧ (scopeExit w0 w).regs = w.regs ∧
    (scopeExit w0 w).log = w.log ∧ (scopeExit w0 w).sysPath = w.sysPath ∧
    (scopeExit w0 w).mPluginModules = w.mPluginModules ∧
    (scopeExit w0 w).mModuleEntrys = w.mModuleEntrys := by
  unfold scopeExit
  split <;> simp [emit]

theorem Grows.refl (w : World) : Grows w w := ⟨rfl, rfl, [], by simp⟩

theorem Grows.trans {a b c : World} (h1 : Grows a b) (h2 : Grows b c) : Grows a c := by
  obtain ⟨r1, g1, e1, h1⟩ := h1
  obtain ⟨r2, g2, e2, h2⟩ := h2
  exact ⟨r2.trans r1, g2.trans g1, e1 ++ e2, by rw [h2, h1, List.append_assoc]⟩

theorem grows_andThen {w : World} {t : Try} {f : World → Try} (h1 : Grows w (worldOf t))
    (h2 : ∀ w1, Grows w1 (worldOf (f w1))) : Grows w (worldOf (andThen t f)) := by
  cases t with
  | error e => exact h1
  | ok w1 => exact h1.trans (h2 w1)

theorem grows_fsCopy (w : World) (src dst : String) : Grows w (worldOf (fsCopy w src dst)) := by
  unfold fsCopy
  cases w.fs src with
  | none => exact ⟨rfl, rfl, _, rfl⟩
  | some c =>
    by_cases h : (w.fs dst).isSome = true
    · simp only [h, if_true]; exact ⟨rfl, rfl, _, rfl⟩
    · simp only [h]; exact ⟨rfl, rfl, _, rfl⟩

theorem grows_fsRemove (w : World) (p : String) : Grows w (fsRemove w p) := ⟨rfl, rfl, _, rfl⟩

theorem grows_writeFile (w : World) (p c : String) : Grows w (writeFile w p c) :=
  ⟨rfl, rfl, _, rfl⟩

theorem grows_copyIfExists (w : World) (entry dst : String) :
    Grows w (worldOf (if fsExists w entry then fsCopy w entry dst else Except.ok w)) := by
  by_cases h : fsExists w entry = true
  · rw [if_pos h]; exact grows_fsCopy _ _ _
  · rw [if_neg h]; exact Grows.refl _

theorem grows_backupEntry (w : World) (entry : String) :
    Grows w (worldOf (backupEntry w entry)) := by
  unfold backupEntry
  have h1 : Grows w (if fsExists w (entry ++ ".bak") then fsRemove w (entry ++ ".bak") else w) := by
    split
    · exact grows_fsRemove _ _
    · exact Grows.refl _
  exact h1.trans (grows_andThen (grows_copyIfExists _ _ _) (fun w2 => grows_writeFile _ _ _))

theorem grows_resumeEntry (w : World) (entry : String) :
    Grows w (worldOf (resumeEntry w entry)) := by
  unfold resumeEntry
  split
  · exact (grows_fsRemove w entry).trans
      (grows_andThen (grows_fsCopy _ _ _) (fun w2 => grows_fsRemove _ _))
  · exact Grows.refl _

theorem grows_pyReload (env : Env) (w : World) (m : PyModule) :
    Grows w (worldOf (pyReload env w m)) := by
  unfold pyReload
  cases env.reload w m <;> exact ⟨rfl, rfl, _, rfl⟩

theorem grows_modulesAt (w : World) (plugin : String) : Grows w (modulesAt w plugin).2 := by
  unfold modulesAt
  cases w.mPluginModules plugin <;> exact ⟨rfl, rfl, [], by simp⟩

theorem grows_entrysAt (w : World) (plugin : String) : Grows w (entrysAt w plugin).2 := by
  unfold entrysAt
  cases w.mModuleEntrys plugin <;> exact ⟨rfl, rfl, [], by simp⟩

theorem grows_logInfo (w : World) (k : String) (a : List String) : Grows w (logInfo w k a) :=
  ⟨rfl, rfl, [], by simp [logInfo]⟩

theorem modulesAt_frame (w : World) (plugin : String) :
    (modulesAt w plugin).2.regs = w.regs ∧ (modulesAt w plugin).2.events = w.events ∧
    (modulesAt w plugin).2.fs = w.fs ∧ (modulesAt w plugin).2.gil = w.gil ∧
    (modulesAt w plugin).2.log = w.log ∧ (modulesAt w plugin).2.sysPath = w.sysPath ∧
    (modulesAt w plugin).2.mModuleEntrys = w.mModuleEntrys := by
  unfold modulesAt
  cases w.mPluginModules plugin <;> simp

theorem entrysAt_frame (w : World) (plugin : String) :
    (entrysAt w plugin).2.regs = w.regs ∧ (entrysAt w plugin).2.events = w.events ∧
    (entrysAt w plugin).2.fs = w.fs ∧ (entrysAt w plugin).2.gil = w.gil ∧
    (entrysAt w plugin).2.log = w.log ∧ (entrysAt w plugin).2.sysPath = w.sysPath ∧
    (entrysAt w plugin).2.mPluginModules = w.mPluginModules := by
  unfold entrysAt
  cases w.mModuleEntrys plugin <;> simp

theorem callOnDisable_cases (env : Env) (w : World) (m : PyModule) :
    callOnDisable env w m = Except.ok (emit w (Event.onDisable m w.regs)) ∨
    ∃ msg, env.onDisable w m = some msg ∧
      callOnDisable env w m = Except.error (Exc.std msg, emit w (Event.onDisable m w.regs)) := by
  unfold callOnDisable
  cases env.onDisable w m with
  | none => exact Or.inl rfl
  | some msg => exact Or.inr ⟨msg, rfl, rfl⟩

/-- What follows `on_disable` in `unloadPlugin` leaves the registries and the lock alone. -/
theorem grows_neutralize (env : Env) (plugin : String) (w2 : World) :
    Grows w2 (worldOf
      (andThen (backupEntry (entrysAt w2 plugin).2 (entrysAt w2 plugin).1) fun w3 =>
        andThen (pyReload env (modulesAt w3 plugin).2 (modulesAt w3 plugin).1) fun w4 =>
        andThen (resumeEntry w4 (entrysAt w2 plugin).1) fun w5 =>
        Except.ok (logInfo w5 "engine.python.plugin.unloaded" [plugin]))) := by
  refine (grows_entrysAt w2 plugin).trans (grows_andThen (grows_backupEntry _ _) fun w3 => ?_)
  refine (grows_modulesAt w3 plugin).trans (grows_andThen (grows_pyReload _ _ _) fun w4 => ?_)
  exact grows_andThen (grows_resumeEntry _ _) fun w5 => grows_logInfo _ _ _

/-- Behind the registry calls: the lock is taken, then `on_disable` is entered with the
registries untouched, and whatever follows leaves the registries alone. -/
theorem disableAndNeutralize_events (env : Env) (w : World) (plugin : String) :
    (worldOf (disableAndNeutralize env w plugin)).regs = w.regs ∧
    (worldOf (disableAndNeutralize env w plugin)).gil = w.gil + 1 ∧
    ∃ rest, (worldOf (disableAndNeutralize env w plugin)).events =
      w.events ++ Event.gilAcquire :: Event.onDisable (modulesAt w plugin).1 w.regs :: rest := by
  have hm := modulesAt_frame (gilAcquire w) plugin
  have hm1 : (modulesAt (gilAcquire w) plugin).1 = (modulesAt w plugin).1 := by
    simp only [modulesAt, gilAcquire, emit]
    cases w.mPluginModules plugin <;> rfl
  have hregs : (modulesAt (gilAcquire w) plugin).2.regs = w.regs := by rw [hm.1]; rfl
  have hgil : (modulesAt (gilAcquire w) plugin).2.gil = w.gil + 1 := by rw [hm.2.2.2.1]; rfl
  have hevs : (modulesAt (gilAcquire w) plugin).2.events = w.events ++ [Event.gilAcquire] := by
    rw [hm.2.1]; rfl
  simp only [disableAndNeutralize]
  rcases callOnDisable_cases env (modulesAt (gilAcquire w) plugin).2
      (modulesAt (gilAcquire w) plugin).1 with h | ⟨msg, -, h⟩
  · rw [h, andThen_ok]
    obtain ⟨hr, hg, rest, hev⟩ := grows_neutralize env plugin
      (emit (modulesAt (gilAcquire w) plugin).2
        (Event.onDisable (modulesAt (gilAcquire w) plugin).1
          (modulesAt (gilAcquire w) plugin).2.regs))
    refine ⟨hr.trans hregs, hg.trans hgil, rest, ?_⟩
    rw [hev]
    show ((modulesAt (gilAcquire w) plugin).2.events ++ [_]) ++ rest = _
    rw [hevs, hregs, hm1]
    simp
  · rw [h, andThen_error]
    refine ⟨hregs, hgil, [], ?_⟩
    show (modulesAt (gilAcquire w) plugin).2.events ++ [_] = _
    rw [hevs, hregs, hm1]
    simp

/-- The registry calls either all return, and every entry of the plugin is gone, or the
first that throws ends the sequence. -/
theorem retract_spec (env : Env) (w : World) (plugin : String) :
    (∃ w1, retract env w plugin = Except.ok w1 ∧ SameStore w w1 ∧
      w1.regs = w.regs.untagged plugin ∧ w1.events = w.events ++ retractCalls plugin 3) ∨
    (∃ e w1 k, 1 ≤ k ∧ k ≤ 3 ∧ retract env w plugin = Except.error (e, w1) ∧ SameStore w w1 ∧
      w1.events = w.events ++ retractCalls plugin k) := by
  cases h1 : env.removeListenersThrows w plugin with
  | some e =>
    right
    exact ⟨e, emit w (Event.removePluginListeners plugin), 1, by decide, by decide,
      by simp only [retract, removePluginListeners, h1, andThen_error],
      ⟨rfl, rfl, rfl, rfl, rfl, rfl⟩, rfl⟩
  | none =>
    cases h2 : env.removeTasksThrows
        { emit w (Event.removePluginListeners plugin) with
          regs := { w.regs with listeners := untag plugin w.regs.listeners } } plugin with
    | some e =>
      right
      exact ⟨e, emit { emit w (Event.removePluginListeners plugin) with
          regs := { w.regs with listeners := untag plugin w.regs.listeners } }
          (Event.removePluginTasks plugin), 2, by decide, by decide,
        by simp only [retract, removePluginListeners, removePluginTasks, h1, h2, andThen_error,
          andThen_ok],
        ⟨rfl, rfl, rfl, rfl, rfl, rfl⟩, by simp [emit, retractCalls]⟩
    | none =>
      cases h3 : env.removeCommandsThrows
          { emit { emit w (Event.removePluginListeners plugin) with
                regs := { w.regs with listeners := untag plugin w.regs.listeners } }
              (Event.removePluginTasks plugin) with
            regs := { w.regs with listeners := untag plugin w.regs.listeners,
                                  tasks := untag plugin w.regs.tasks } } plugin with
      | some e =>
        right
        exact ⟨e, emit { emit { emit w (Event.removePluginListeners plugin) with
                regs := { w.regs with listeners := untag plugin w.regs.listeners } }
              (Event.removePluginTasks plugin) with
            regs := { w.regs with listeners := untag plugin w.regs.listeners,
                                  tasks := untag plugin w.regs.tasks } }
            (Event.removePluginCommands plugin), 3, by decide, by decide,
          by simp only [retract, removePluginListeners, removePluginTasks, removePluginCommands,
            h1, h2, h3, andThen_error, andThen_ok],
          ⟨rfl, rfl, rfl, rfl, rfl, rfl⟩, by simp [emit, retractCalls]⟩
      | none =>
        left
        exact ⟨{ emit { emit { emit w (Event.removePluginListeners plugin) with
                regs := { w.regs with listeners := untag plugin w.regs.listeners } }
              (Event.removePluginTasks plugin) with
            regs := { w.regs with listeners := untag plugin w.regs.listeners,
                                  tasks := untag plugin w.regs.tasks } }
            (Event.removePluginCommands plugin) with
            regs := w.regs.untagged plugin },
          by simp only [retract, removePluginListeners, removePluginTasks,
            removePluginCommands, h1, h2, h3, andThen_ok, Registries.untagged],
          ⟨rfl, rfl, rfl, rfl, rfl, rfl⟩, rfl, by simp [emit, retractCalls]⟩

theorem loadPrologue_eq (w : World) (plugin entry : String) :
    ∃ infos sys, (∀ l ∈ infos, l.level = Level.info) ∧
      loadPrologue w plugin entry =
        { w with sysPath := w.sysPath ++ [parent_path entry], gil := w.gil + 1,
                 log := w.log ++ infos, events := w.events ++ Event.gilAcquire :: sys } := by
  by_cases h : (w.fs ("./plugins/" ++ plugin ++ "/requirements.txt")).isSome = true
  · exact ⟨[⟨Level.info, "engine.python.plugin.loading", [plugin]⟩,
        ⟨Level.info, "engine.python.plugin.pip.loading", [plugin]⟩], _, by simp,
      by simp [loadPrologue, fsExists, logInfo, gilAcquire, emit, sysPathAppend, h]; rfl⟩
  · exact ⟨[⟨Level.info, "engine.python.plugin.loading", [plugin]⟩], [], by simp,
      by simp [loadPrologue, fsExists, logInfo, gilAcquire, emit, sysPathAppend, h]⟩

/-! ## Claims on `loadPlugin` and `unloadPlugin` -/

/-- C6: when the plugin has no record yet and the first import of its entry module raises
with message `msg`, `loadPlugin` (a total function, so nothing escapes it) returns `false`,
writes, behind its informational lines, exactly one error line, which carries the plugin id
and `msg`, and leaves `mPluginModules` and `mModuleEntrys` as they were. -/
theorem loadPlugin_first_import_raises (env : Env) (w : World) (plugin entry msg : String)
    (habs : w.mPluginModules plugin = none)
    (himp : ∀ w', env.importModule w' (moduleNameOf entry) = some msg) :
    (loadPlugin env w plugin entry).1 = false ∧
    (∃ infos, (∀ l ∈ infos, l.level = Level.info) ∧
       (loadPlugin env w plugin entry).2.log = w.log ++ infos ++
         [⟨Level.error, "engine.python.plugin.load.exception", [plugin, msg]⟩]) ∧
    (loadPlugin env w plugin entry).2.mPluginModules = w.mPluginModules ∧
    (loadPlugin env w plugin entry).2.mModuleEntrys = w.mModuleEntrys := by
  obtain ⟨infos, sys, hinf, hp⟩ := loadPrologue_eq w plugin entry
  have hb : loadPlugin env w plugin entry = (false, logError (scopeExit w
      (emit (loadPrologue w plugin entry) (Event.pyImport (moduleNameOf entry))))
      "engine.python.plugin.load.exception" [plugin, msg]) := by
    simp [loadPlugin, loadBody, importOrReload, pyImport, himp, hp, habs]
  rw [hb, hp]
  refine ⟨rfl, ⟨infos, hinf, ?_⟩, ?_, ?_⟩ <;>
    simp [logError, scopeExit, emit]

theorem retract_ok_of_calm (env : Env) (w : World) (plugin : String)
    (h1 : ∀ w', env.removeListenersThrows w' plugin = none)
    (h2 : ∀ w', env.removeTasksThrows w' plugin = none)
    (h3 : ∀ w', env.removeCommandsThrows w' plugin = none) :
    ∃ w1, retract env w plugin = Except.ok w1 := by
  simp only [retract, removePluginListeners, removePluginTasks, removePluginCommands, h1, h2, h3,
    andThen_ok]
  exact ⟨_, rfl⟩

theorem unloadPlugin_world (env : Env) (w : World) (plugin : String) :
    (unloadPlugin env w plugin).2.events =
        (scopeExit w (worldOf (unloadBody env plugin w))).events ∧
    (unloadPlugin env w plugin).2.regs = (worldOf (unloadBody env plugin w)).regs ∧
    (unloadPlugin env w plugin).2.fs = (worldOf (unloadBody env plugin w)).fs := by
  unfold unloadPlugin
  cases unloadBody env plugin w with
  | ok w1 => exact ⟨rfl, (scopeExit_frame _ _).2.1, (scopeExit_frame _ _).1⟩
  | error e =>
    obtain ⟨e, w1⟩ := e
    cases e <;> exact ⟨rfl, (scopeExit_frame _ _).2.1, (scopeExit_frame _ _).1⟩

/-- C4: the events `unloadPlugin` issues start with the removal of the plugin's listeners;
the first three of them are, in this order and as far as they go, the removal of its
listeners, of its scheduled tasks and of its commands; when the lock is taken or `on_disable`
is entered at all, the three removals stand before both, and `on_disable` sees registries
with no entry of the plugin.  When no removal throws, all this happens, and the registries
hold no entry of the plugin when `unloadPlugin` returns. -/
theorem unloadPlugin_retracts_before_disable (env : Env) (w : World) (plugin : String) :
    ∃ evs, (unloadPlugin env w plugin).2.events = w.events ++ evs ∧
      evs ≠ [] ∧
      evs.take 3 <+: [Event.removePluginListeners plugin, Event.removePluginTasks plugin,
        Event.removePluginCommands plugin] ∧
      ((Event.gilAcquire ∈ evs ∨ ∃ m r, Event.onDisable m r ∈ evs) →
        ∃ m r rest, evs = [Event.removePluginListeners plugin, Event.removePluginTasks plugin,
            Event.removePluginCommands plugin, Event.gilAcquire, Event.onDisable m r] ++ rest ∧
          r.free plugin) ∧
      ((∀ w', env.removeListenersThrows w' plugin = none) →
        (∀ w', env.removeTasksThrows w' plugin = none) →
        (∀ w', env.removeCommandsThrows w' plugin = none) →
        (∃ m r rest, evs = [Event.removePluginListeners plugin, Event.removePluginTasks plugin,
            Event.removePluginCommands plugin, Event.gilAcquire, Event.onDisable m r] ++ rest ∧
          r.free plugin) ∧
        (unloadPlugin env w plugin).2.regs.free plugin) := by
  obtain ⟨hfe, hfr, -⟩ := unloadPlugin_world env w plugin
  rcases retract_spec env (logInfo w "engine.python.plugin.unloading" [plugin]) plugin with
    ⟨w1, h, hs, hregs, hevs⟩ | ⟨e, w1, k, hk1, hk3, h, hs, hevs⟩
  · have hb : unloadBody env plugin w = disableAndNeutralize env w1 plugin := by
      simp only [unloadBody, h, andThen_ok]
    obtain ⟨hr, hg, rest, hev⟩ := disableAndNeutralize_events env w1 plugin
    rw [← hb] at hr hg hev
    have hlt : w.gil < (worldOf (unloadBody env plugin w)).gil := by
      rw [hg, hs.2.1]; exact Nat.lt_succ_self _
    rw [scopeExit_held _ _ hlt] at hfe
    have hfree : (worldOf (unloadBody env plugin w)).regs.free plugin := by
      rw [hr, hregs]; exact untagged_free _ _
    have key : ∃ m r rest', (retractCalls plugin 3 ++ Event.gilAcquire ::
          Event.onDisable (modulesAt w1 plugin).1 w1.regs :: rest ++ [Event.gilRelease]) =
        [Event.removePluginListeners plugin, Event.removePluginTasks plugin,
          Event.removePluginCommands plugin, Event.gilAcquire, Event.onDisable m r] ++ rest' ∧
        r.free plugin :=
      ⟨(modulesAt w1 plugin).1, w1.regs, rest ++ [Event.gilRelease], by simp [retractCalls],
        by rw [hregs]; exact untagged_free _ _⟩
    refine ⟨_, ?_, ?_, ?_, fun _ => key, fun _ _ _ => ⟨key, ?_⟩⟩
    · rw [hfe]
      show (worldOf (unloadBody env plugin w)).events ++ [Event.gilRelease] = _
      rw [hev, hevs]
      simp [logInfo]
    · simp [retractCalls]
    · simp [retractCalls]
    · rw [hfr]; exact hfree
  · have hb : unloadBody env plugin w = Except.error (e, w1) := by
      simp only [unloadBody, h, andThen_error]
    rw [hb] at hfe
    rw [scopeExit_same _ _ (by simp only [worldOf, hs.2.1]; rfl)] at hfe
    have hk : k = 1 ∨ k = 2 ∨ k = 3 := by omega
    refine ⟨retractCalls plugin k, ?_, ?_, ?_, ?_, ?_⟩
    · rw [hfe]; simp only [worldOf, hevs]; rfl
    · rcases hk with rfl | rfl | rfl <;> simp [retractCalls]
    · rcases hk with rfl | rfl | rfl <;> simp [retractCalls]
    · intro hmem
      exfalso
      rcases hk with rfl | rfl | rfl <;> simp [retractCalls] at hmem
    · intro h1 h2 h3
      exfalso
      obtain ⟨w2, hw2⟩ := retract_ok_of_calm env
        (logInfo w "engine.python.plugin.unloading" [plugin]) plugin h1 h2 h3
      rw [hw2] at h
      cases h

/-- C3, refuted: the event bus throws while the listeners of `alpha` are removed; then
`unloadPlugin` issues no other call, and the scheduled task and the command of `alpha` are
still registered when it returns `false`. -/
theorem retraction_stops_counterexample :
    (unloadPlugin listenersThrowEnv busyWorld "alpha").1 = false ∧
    (unloadPlugin listenersThrowEnv busyWorld "alpha").2.events =
      [Event.removePluginListeners "alpha"] ∧
    (unloadPlugin listenersThrowEnv busyWorld "alpha").2.regs.tasks =
      [("alpha", "tick"), ("beta", "tock")] ∧
    (unloadPlugin listenersThrowEnv busyWorld "alpha").2.regs.commands = [("alpha", "hello")] := by
  decide

/-- C3, amended: the three registry calls are one sequence inside one `try` block.  When
removing the listeners throws, neither the scheduled tasks nor the commands are removed;
when removing the scheduled tasks throws, the commands are not removed; either way
`unloadPlugin` returns `false`. -/
theorem unloadPlugin_retraction_stops (env : Env) (w : World) (plugin : String) (e : Exc) :
    ((∀ w', env.removeListenersThrows w' plugin = some e) →
      (unloadPlugin env w plugin).1 = false ∧
      (unloadPlugin env w plugin).2.events = w.events ++ [Event.removePluginListeners plugin] ∧
      (unloadPlugin env w plugin).2.regs = w.regs) ∧
    ((∀ w', env.removeListenersThrows w' plugin = none) →
      (∀ w', env.removeTasksThrows w' plugin = some e) →
      (unloadPlugin env w plugin).1 = false ∧
      (unloadPlugin env w plugin).2.events =
        w.events ++ [Event.removePluginListeners plugin, Event.removePluginTasks plugin] ∧
      (unloadPlugin env w plugin).2.regs =
        { w.regs with listeners := untag plugin w.regs.listeners }) := by
  constructor
  · intro h
    cases e <;>
      simp [unloadPlugin, unloadBody, retract, removePluginListeners, h, scopeExit, emit, logInfo,
        logError]
  · intro h1 h2
    cases e <;>
      simp [unloadPlugin, unloadBody, retract, removePluginListeners, removePluginTasks, h1, h2,
        scopeExit, emit, logInfo, logError]

theorem bak_ne (entry : String) : entry ++ ".bak" ≠ entry := by
  intro h
  have := congrArg String.length h
  simp at this
  exact absurd this (by decide)

theorem backupEntry_fs (w : World) (entry c : String) (h : w.fs entry = some c) :
    ∃ w3, backupEntry w entry = Except.ok w3 ∧ w3.fs entry = some "" ∧
      w3.fs (entry ++ ".bak") = some c := by
  have hne := bak_ne entry
  by_cases hb : (w.fs (entry ++ ".bak")).isSome = true
  · refine ⟨_, by simp [backupEntry, fsExists, fsRemove, fsCopy, writeFile, emit, h, hb, hne.symm]; rfl, ?_, ?_⟩ <;> simp [hne]
  · refine ⟨_, by simp [backupEntry, fsExists, fsRemove, fsCopy, writeFile, emit, h, hb, hne.symm]; rfl, ?_, ?_⟩ <;> simp [hne]

theorem resumeEntry_fs (w : World) (entry x c : String) (h1 : w.fs entry = some x)
    (h2 : w.fs (entry ++ ".bak") = some c) :
    ∃ w5, resumeEntry w entry = Except.ok w5 ∧ w5.fs entry = some c ∧
      w5.fs (entry ++ ".bak") = none := by
  have hne := bak_ne entry
  refine ⟨_, by simp [resumeEntry, fsExists, fsRemove, fsCopy, emit, h1, h2, hne]; rfl, ?_, ?_⟩ <;>
    simp [hne.symm]

theorem pyReload_ok {env : Env} {w w' : World} {m : PyModule}
    (h : pyReload env w m = Except.ok w') : w' = emit w (Event.pyReload m) := by
  unfold pyReload at h
  cases ho : env.reload w m <;> simp [ho] at h
  exact h.symm

theorem pyImport_ok {env : Env} {w w' : World} {n : String}
    (h : pyImport env w n = Except.ok w') : w' = emit w (Event.pyImport n) := by
  unfold pyImport at h
  cases ho : env.importModule w n <;> simp [ho] at h
  exact h.symm

theorem callOnEnable_ok {env : Env} {w w' : World} {m : PyModule}
    (h : callOnEnable env w m = Except.ok w') : w' = emit w (Event.onEnable m) := by
  unfold callOnEnable at h
  cases ho : env.onEnable w m <;> simp [ho] at h
  exact h.symm

theorem callOnDisable_ok {env : Env} {w w' : World} {m : PyModule}
    (h : callOnDisable env w m = Except.ok w') : w' = emit w (Event.onDisable m w.regs) := by
  unfold callOnDisable at h
  cases ho : env.onDisable w m <;> simp [ho] at h
  exact h.symm

theorem sysPathRemove_ok {w w' : World} {p : String} (h : sysPathRemove w p = Except.ok w') :
    w' = { w with sysPath := w.sysPath.erase p } := by
  unfold sysPathRemove at h
  split at h
  · cases h; rfl
  · cases h

theorem modulesAt_entrys (w : World) (plugin : String) :
    (modulesAt w plugin).2.mModuleEntrys = w.mModuleEntrys ∧ (modulesAt w plugin).2.fs = w.fs :=
  ⟨(modulesAt_frame w plugin).2.2.2.2.2.2, (modulesAt_frame w plugin).2.2.1⟩

/-- A `loadPlugin` that returns `true` has left the file system alone and has the entry of
the plugin on record, when a record made earlier names the same entry. -/
theorem loadPlugin_true_store (env : Env) (w : World) (plugin entry : String)
    (hrec : w.mPluginModules plugin ≠ none → w.mModuleEntrys plugin = some entry)
    (hl : (loadPlugin env w plugin entry).1 = true) :
    (loadPlugin env w plugin entry).2.fs = w.fs ∧
    (loadPlugin env w plugin entry).2.mModuleEntrys plugin = some entry := by
  obtain ⟨infos, sys, -, hp⟩ := loadPrologue_eq w plugin entry
  unfold loadPlugin at hl ⊢
  cases hb : loadBody env plugin entry w with
  | error e =>
    obtain ⟨e, w1⟩ := e
    cases e <;> simp [hb] at hl
  | ok w1 =>
    simp only [hb]
    rw [(scopeExit_frame w w1).1, (scopeExit_frame w w1).2.2.2.2.2]
    unfold loadBody at hb
    obtain ⟨w4, h4, hb⟩ := andThen_eq_ok hb
    obtain ⟨w5, h5, hb⟩ := andThen_eq_ok hb
    obtain ⟨w6, h6, hb⟩ := andThen_eq_ok hb
    cases hb
    have e5 := callOnEnable_ok h5
    have e6 := sysPathRemove_ok h6
    have hm := modulesAt_entrys w4 plugin
    have h64 : w6.fs = w4.fs ∧ w6.mModuleEntrys = w4.mModuleEntrys := by
      rw [e6, e5]; exact ⟨hm.2, hm.1⟩
    show w6.fs = w.fs ∧ w6.mModuleEntrys plugin = some entry
    rw [h64.1, h64.2]
    unfold importOrReload at h4
    split at h4
    · obtain ⟨w3', h3, h4⟩ := andThen_eq_ok h4
      have e3 := pyImport_ok h3
      cases h4
      rw [e3, hp]
      simp [emit]
    · have e4 := pyReload_ok h4
      have hm3 := modulesAt_entrys (loadPrologue w plugin entry) plugin
      have hsome : w.mPluginModules plugin ≠ none := by
        rename_i hs
        rw [hp] at hs
        intro hn
        simp [hn] at hs
      rw [e4]
      show (modulesAt (loadPrologue w plugin entry) plugin).2.fs = w.fs ∧
        (modulesAt (loadPrologue w plugin entry) plugin).2.mModuleEntrys plugin = some entry
      rw [hm3.1, hm3.2, hp]
      exact ⟨rfl, hrec hsome⟩

/-- A `loadPlugin` that returns `true` has appended the parent directory of the entry to
`sys.path` and has removed its first occurrence again; the list is the one before the call
when the directory was not on it. -/
theorem loadPlugin_true_sysPath (env : Env) (w : World) (plugin entry : String)
    (hl : (loadPlugin env w plugin entry).1 = true) :
    (loadPlugin env w plugin entry).2.sysPath =
        (w.sysPath ++ [parent_path entry]).erase (parent_path entry) ∧
    (parent_path entry ∉ w.sysPath → (loadPlugin env w plugin entry).2.sysPath = w.sysPath) := by
  obtain ⟨infos, sys, -, hp⟩ := loadPrologue_eq w plugin entry
  have hgoal : (loadPlugin env w plugin entry).2.sysPath =
      (w.sysPath ++ [parent_path entry]).erase (parent_path entry) := by
    unfold loadPlugin at hl ⊢
    cases hb : loadBody env plugin entry w with
    | error e =>
      obtain ⟨e, w1⟩ := e
      cases e <;> simp [hb] at hl
    | ok w1 =>
      simp only [hb]
      rw [(scopeExit_frame w w1).2.2.2.1]
      unfold loadBody at hb
      obtain ⟨w4, h4, hb⟩ := andThen_eq_ok hb
      obtain ⟨w5, h5, hb⟩ := andThen_eq_ok hb
      obtain ⟨w6, h6, hb⟩ := andThen_eq_ok hb
      cases hb
      have e5 := callOnEnable_ok h5
      have e6 := sysPathRemove_ok h6
      have h54 : w5.sysPath = w4.sysPath := by
        rw [e5]; exact (modulesAt_frame w4 plugin).2.2.2.2.2.1
      have h43 : w4.sysPath = w.sysPath ++ [parent_path entry] := by
        unfold importOrReload at h4
        split at h4
        · obtain ⟨w3', h3, h4⟩ := andThen_eq_ok h4
          cases h4
          rw [pyImport_ok h3, hp]
          rfl
        · rw [pyReload_ok h4]
          show (modulesAt (loadPrologue w plugin entry) plugin).2.sysPath = _
          rw [(modulesAt_frame _ plugin).2.2.2.2.2.1, hp]
      show w6.sysPath = _
      rw [e6]
      show w5.sysPath.erase (parent_path entry) = _
      rw [h54, h43]
  refine ⟨hgoal, fun hn => ?_⟩
  rw [hgoal, List.erase_append_right _ hn]
  simp

theorem entrysAt_of_some (w : World) (plugin entry : String)
    (h : w.mModuleEntrys plugin = some entry) : entrysAt w plugin = (entry, w) := by
  simp [entrysAt, h]

/-- An `unloadPlugin` that returns `true` on a plugin whose recorded entry file exists has
put the contents of the file back and has left no backup. -/
theorem unloadPlugin_true_fs (env : Env) (w : World) (plugin entry c : String)
    (hc : w.fs entry = some c) (he : w.mModuleEntrys plugin = some entry)
    (hu : (unloadPlugin env w plugin).1 = true) :
    (unloadPlugin env w plugin).2.fs entry = some c ∧
    (unloadPlugin env w plugin).2.fs (entry ++ ".bak") = none := by
  unfold unloadPlugin at hu ⊢
  cases hb : unloadBody env plugin w with
  | error e =>
    obtain ⟨e, w1⟩ := e
    cases e <;> simp [hb] at hu
  | ok wf =>
    simp only [hb]
    rw [(scopeExit_frame w wf).1]
    unfold unloadBody at hb
    obtain ⟨w1, h1, hb⟩ := andThen_eq_ok hb
    have hs : SameStore (logInfo w "engine.python.plugin.unloading" [plugin]) w1 := by
      rcases retract_spec env (logInfo w "engine.python.plugin.unloading" [plugin]) plugin with
        ⟨w1', h, hs, -, -⟩ | ⟨e, w1', k, -, -, h, -, -⟩
      · rw [h1] at h; cases h; exact hs
      · rw [h1] at h; cases h
    simp only [disableAndNeutralize] at hb
    obtain ⟨w2, h2, hb⟩ := andThen_eq_ok hb
    obtain ⟨w3, h3, hb⟩ := andThen_eq_ok hb
    obtain ⟨w4, h4, hb⟩ := andThen_eq_ok hb
    obtain ⟨w5, h5, hb⟩ := andThen_eq_ok hb
    cases hb
    have e2 := callOnDisable_ok h2
    have hm := modulesAt_entrys (gilAcquire w1) plugin
    have h2fs : w2.fs = w.fs := by
      rw [e2]
      show (modulesAt (gilAcquire w1) plugin).2.fs = w.fs
      rw [hm.2]
      exact hs.1
    have h2en : w2.mModuleEntrys = w.mModuleEntrys := by
      rw [e2]
      show (modulesAt (gilAcquire w1) plugin).2.mModuleEntrys = w.mModuleEntrys
      rw [hm.1]
      exact hs.2.2.2.2.2
    have hat : entrysAt w2 plugin = (entry, w2) := entrysAt_of_some w2 plugin entry (by rw [h2en, he])
    rw [hat] at h3 h5
    obtain ⟨w3', h3', h3e, h3b⟩ := backupEntry_fs w2 entry c (by rw [h2fs, hc])
    rw [h3] at h3'
    cases h3'
    have e4 := pyReload_ok h4
    have h4fs : w4.fs = w3.fs := by
      rw [e4]
      exact (modulesAt_entrys w3 plugin).2
    obtain ⟨w5', h5', h5e, h5b⟩ := resumeEntry_fs w4 entry "" c (by rw [h4fs, h3e])
      (by rw [h4fs, h3b])
    rw [h5] at h5'
    cases h5'
    exact ⟨h5e, h5b⟩

/-- C1: when the entry file exists with contents `c` (a stale backup may lie next to it), a
record made for the plugin earlier names the same entry, and `loadPlugin` and then
`unloadPlugin` both return `true`, the entry file has the contents `c` again and there is no
file at the backup path. -/
theorem load_unload_restores_entry (env : Env) (w : World) (plugin entry c : String)
    (hc : w.fs entry = some c)
    (hrec : w.mPluginModules plugin ≠ none → w.mModuleEntrys plugin = some entry)
    (hl : (loadPlugin env w plugin entry).1 = true)
    (hu : (unloadPlugin env (loadPlugin env w plugin entry).2 plugin).1 = true) :
    (unloadPlugin env (loadPlugin env w plugin entry).2 plugin).2.fs entry = some c ∧
    (unloadPlugin env (loadPlugin env w plugin entry).2 plugin).2.fs (entry ++ ".bak") = none := by
  obtain ⟨hfs, hen⟩ := loadPlugin_true_store env w plugin entry hrec hl
  exact unloadPlugin_true_fs env _ plugin entry c (by rw [hfs, hc]) hen hu

/-- C1 at a sample input: `alpha` is loaded for the first time, a stale backup lies next to
its entry file, and no collaborator fails. -/
theorem load_unload_restores_entry_witness :
    (unloadPlugin calmEnv (loadPlugin calmEnv freshWorld "alpha" "plugins/alpha/main.py").2
        "alpha").2.fs "plugins/alpha/main.py" = some "def on_enable(): pass" ∧
    (unloadPlugin calmEnv (loadPlugin calmEnv freshWorld "alpha" "plugins/alpha/main.py").2
        "alpha").2.fs ("plugins/alpha/main.py" ++ ".bak") = none :=
  load_unload_restores_entry calmEnv freshWorld "alpha" "plugins/alpha/main.py"
    "def on_enable(): pass" (by decide) (by decide) (by decide) (by decide)

/-- C5, refuted: the `on_disable` hook of `alpha` raises; `unloadPlugin` returns `false`
having issued no file operation and no re-import, and the stale backup that lay next to the
entry file is still there. -/
theorem unloadPlugin_hook_failure_counterexample :
    (unloadPlugin disableRaisesEnv busyWorld "alpha").1 = false ∧
    (unloadPlugin disableRaisesEnv busyWorld "alpha").2.events =
      [Event.removePluginListeners "alpha", Event.removePluginTasks "alpha",
        Event.removePluginCommands "alpha", Event.gilAcquire,
        Event.onDisable (some "plugins.alpha.main") ⟨[], [("beta", "tock")], []⟩,
        Event.gilRelease] ∧
    (unloadPlugin disableRaisesEnv busyWorld "alpha").2.fs "plugins/alpha/main.py.bak" =
      some "stale" := by
  decide

/-- C5, amended: when the `on_disable` hook of a loaded plugin raises with message `msg`
(the registry calls before it having returned), `unloadPlugin` returns `false` and logs one
error line with the plugin id and `msg`; the lock is released; the backup step, the
re-import and the resume step are not performed, and the file system is left as it was. -/
theorem unloadPlugin_hook_failure (env : Env) (w : World) (plugin msg : String) (m : PyModule)
    (hload : w.mPluginModules plugin = some m)
    (h1 : ∀ w', env.removeListenersThrows w' plugin = none)
    (h2 : ∀ w', env.removeTasksThrows w' plugin = none)
    (h3 : ∀ w', env.removeCommandsThrows w' plugin = none)
    (hdis : ∀ w', env.onDisable w' m = some msg) :
    (unloadPlugin env w plugin).1 = false ∧
    (unloadPlugin env w plugin).2.fs = w.fs ∧
    (unloadPlugin env w plugin).2.events = w.events ++
      [Event.removePluginListeners plugin, Event.removePluginTasks plugin,
        Event.removePluginCommands plugin, Event.gilAcquire,
        Event.onDisable m (w.regs.untagged plugin), Event.gilRelease] ∧
    (unloadPlugin env w plugin).2.log = w.log ++
      [⟨Level.info, "engine.python.plugin.unloading", [plugin]⟩,
        ⟨Level.error, "engine.python.plugin.unload.exception", [plugin, msg]⟩] := by
  simp [unloadPlugin, unloadBody, retract, removePluginListeners, removePluginTasks,
    removePluginCommands, h1, h2, h3, disableAndNeutralize, callOnDisable, modulesAt, hload, hdis,
    gilAcquire, emit, logInfo, logError, scopeExit, Registries.untagged]

/-- C5, amended, at a sample input: the `on_disable` hook of the loaded plugin `alpha`
raises. -/
theorem unloadPlugin_hook_failure_witness :
    (unloadPlugin disableRaisesEnv busyWorld "alpha").1 = false ∧
    (unloadPlugin disableRaisesEnv busyWorld "alpha").2.fs = busyWorld.fs ∧
    (unloadPlugin disableRaisesEnv busyWorld "alpha").2.events = busyWorld.events ++
      [Event.removePluginListeners "alpha", Event.removePluginTasks "alpha",
        Event.removePluginCommands "alpha", Event.gilAcquire,
        Event.onDisable (some "plugins.alpha.main") (busyWorld.regs.untagged "alpha"),
        Event.gilRelease] ∧
    (unloadPlugin disableRaisesEnv busyWorld "alpha").2.log = busyWorld.log ++
      [⟨Level.info, "engine.python.plugin.unloading", ["alpha"]⟩,
        ⟨Level.error, "engine.python.plugin.unload.exception",
          ["alpha", "RuntimeError: teardown failed"]⟩] :=
  unloadPlugin_hook_failure disableRaisesEnv busyWorld "alpha" "RuntimeError: teardown failed"
    (some "plugins.alpha.main") (by decide) (fun _ => rfl) (fun _ => rfl) (fun _ => rfl)
    (fun _ => rfl)

/-! ## Strings -/

theorem replaceGo_skip (old new : List Char) (a X : List Char) :
    replaceGo old new a.length (a ++ X) = replaceGo old new 0 X := by
  induction a with
  | nil => rfl
  | cons c a ih => simpa [replaceGo] using ih

/-- An occurrence at the head of the string is replaced, and the search goes on behind it. -/
theorem replaceGo_atHead (old new X : List Char) (h : old ≠ []) :
    replaceGo old new 0 (old ++ X) = new ++ replaceGo old new 0 X := by
  cases old with
  | nil => exact absurd rfl h
  | cons c cs =>
    have hp : (c :: cs).isPrefixOf (c :: (cs ++ X)) = true :=
      List.isPrefixOf_iff_prefix.mpr ⟨X, rfl⟩
    show replaceGo (c :: cs) new 0 (c :: (cs ++ X)) = _
    rw [replaceGo, if_pos hp]
    simp only [List.length_cons, Nat.add_sub_cancel]
    rw [replaceGo_skip]

/-- A string without occurrence is left alone. -/
theorem replaceGo_noocc (old new X : List Char) (h : ¬ old <:+: X) :
    replaceGo old new 0 X = X := by
  induction X with
  | nil => rfl
  | cons c X ih =>
    have hp : (old.isPrefixOf (c :: X)) = false := by
      cases hb : old.isPrefixOf (c :: X) with
      | false => rfl
      | true => exact absurd (List.isPrefixOf_iff_prefix.mp hb).isInfix h
    rw [replaceGo, hp]
    simp only [Bool.false_eq_true, if_false]
    rw [ih (fun hi => h (hi.trans (List.suffix_cons c X).isInfix))]

/-- The first occurrence is replaced first: no occurrence starts in `a`. -/
theorem replaceGo_first (old new a X : List Char) (h : old ≠ [])
    (ha : ¬ old <:+: a ++ old.dropLast) :
    replaceGo old new 0 (a ++ old ++ X) = a ++ new ++ replaceGo old new 0 X := by
  induction a with
  | nil => simpa using replaceGo_atHead old new X h
  | cons c a ih =>
    have hp : (old.isPrefixOf (c :: (a ++ old ++ X))) = false := by
      cases hb : old.isPrefixOf (c :: (a ++ old ++ X)) with
      | false => rfl
      | true =>
        exfalso
        apply ha
        have h1 : old <+: c :: a ++ old ++ X := List.isPrefixOf_iff_prefix.mp hb
        have h2 : c :: a ++ old.dropLast <+: c :: a ++ old ++ X :=
          ((List.prefix_append_right_inj (c :: a)).mpr (List.dropLast_prefix old)).trans
            (List.prefix_append _ _)
        have h3 : old.length ≤ (c :: a ++ old.dropLast).length := by
          simp only [List.length_append, List.length_cons, List.length_dropLast]
          omega
        exact (List.prefix_of_prefix_length_le h1 h2 h3).isInfix
    show replaceGo old new 0 (c :: (a ++ old ++ X)) = _
    rw [replaceGo, hp]
    simp only [Bool.false_eq_true, if_false]
    rw [ih (fun hi => ha (hi.trans (List.suffix_cons c _).isInfix))]
    simp

theorem findGo_none (c : Char) (l : List Char) (i : Nat) (h : c ∉ l) :
    findGo [c] l i = none := by
  induction l generalizing i with
  | nil => rfl
  | cons x l ih =>
    have hx : c ≠ x := fun e => h (e ▸ List.mem_cons_self _ _)
    have hpre : List.isPrefixOf [c] (x :: l) = false := by simp [List.isPrefixOf, hx]
    rw [findGo, hpre]
    exact ih (i + 1) (fun hm => h (List.mem_cons_of_mem _ hm))

theorem findGo_first (c : Char) (a b : List Char) (i : Nat) (h : c ∉ a) :
    findGo [c] (a ++ c :: b) i = some (i + a.length) := by
  induction a generalizing i with
  | nil => simp [findGo, List.isPrefixOf]
  | cons x a ih =>
    have hx : c ≠ x := fun e => h (e ▸ List.mem_cons_self _ _)
    have hpre : List.isPrefixOf [c] (x :: (a ++ c :: b)) = false := by
      simp [List.isPrefixOf, hx]
    show findGo [c] (x :: (a ++ c :: b)) i = _
    rw [findGo, hpre]
    simp only [Bool.false_eq_true, if_false]
    rw [ih (i + 1) (fun hm => h (List.mem_cons_of_mem _ hm))]
    simp only [List.length_cons]
    congr 1
    omega

theorem ReplaceStr_data (s old new : String) (h : old ≠ "") :
    (ReplaceStr s old new).data = replaceGo old.data new.data 0 s.data := by
  have : old.data ≠ [] := fun e => h (String.ext e)
  simp [ReplaceStr, this]

/-- C8, amended: when the file of the innermost frame is the plugins root, a plugin id `p`
without path separator, a separator and a remainder `r`, and the plugins root does not occur
a second time behind its first occurrence, `getCallingPlugin` returns exactly `p`; with the
separator backslash the remainder must not contain `/`, which `getCallingPlugin` looks for
first. -/
theorem getCallingPlugin_under_root (root p r : String) (sep : Char) (rest : List FrameInfo)
    (hroot : root ≠ "") (hp1 : '/' ∉ p.data) (hp2 : '\\' ∉ p.data)
    (hsep : sep = '/' ∨ (sep = '\\' ∧ '/' ∉ r.data))
    (hocc : ¬ root.data <:+: p.data ++ sep :: r.data) :
    getCallingPlugin root (⟨root ++ p ++ String.singleton sep ++ r⟩ :: rest) =
      Except.ok (some p) := by
  have hstrip : ReplaceStr (root ++ p ++ String.singleton sep ++ r) root "" =
      ⟨p.data ++ sep :: r.data⟩ := by
    apply String.ext
    rw [ReplaceStr_data _ _ _ hroot]
    have hr : root.data ≠ [] := fun e => hroot (String.ext e)
    have := replaceGo_atHead root.data [] (p.data ++ sep :: r.data) hr
    have hs : (String.singleton sep).data = [sep] := rfl
    simp only [String.data_append, hs, List.append_assoc, List.singleton_append]
    rw [this, replaceGo_noocc _ _ _ hocc]
    rfl
  simp only [getCallingPlugin, inspectStack, hstrip, find]
  rcases hsep with rfl | ⟨rfl, hr⟩
  · have := findGo_first '/' p.data r.data 0 hp1
    simp only [show "/".data = ['/'] from rfl, this, erase]
    simp
  · have h1 : findGo ['/'] (p.data ++ '\\' :: r.data) 0 = none := by
      apply findGo_none
      simp [hp1, hr]
    have h2 := findGo_first '\\' p.data r.data 0 hp2
    simp only [show "/".data = ['/'] from rfl, show "\\".data = ['\\'] from rfl, h1, h2, erase]
    simp

theorem py_infix_snoc (X : List Char) (h : ['.', 'p', 'y'] <:+: X ++ ['.', 'p']) :
    ['.', 'p', 'y'] <:+: X := by
  rw [← List.reverse_infix] at h ⊢
  simp only [List.reverse_append, List.reverse_cons, List.reverse_nil, List.nil_append,
    List.cons_append] at h ⊢
  rcases List.infix_cons_iff.mp h with h | h
  · simp at h
  · rcases List.infix_cons_iff.mp h with h | h
    · simp at h
    · exact h

theorem py_infix_dotslash (X : List Char) (h : ['.', 'p', 'y'] <:+: '.' :: '/' :: X) :
    ['.', 'p', 'y'] <:+: X := by
  rcases List.infix_cons_iff.mp h with h | h
  · simp at h
  · rcases List.infix_cons_iff.mp h with h | h
    · simp at h
    · exact h

theorem mem_of_singletonInfix (c : Char) (l : List Char) (h : [c] <:+: l) : c ∈ l := by
  obtain ⟨s, t, rfl⟩ := h
  simp

theorem replace_seps (segs : List String) (hseg : ∀ s ∈ segs, '/' ∉ s.data) :
    replaceGo ['/'] ['.'] 0 (joinSegs '/' segs) = joinSegs '.' segs := by
  induction segs with
  | nil => rfl
  | cons s t ih =>
    cases t with
    | nil =>
      exact replaceGo_noocc _ _ _ (fun h => hseg s (List.mem_cons_self _ _) (mem_of_singletonInfix _ _ h))
    | cons t ts =>
      have hs : '/' ∉ s.data := hseg s (List.mem_cons_self _ _)
      have := replaceGo_first ['/'] ['.'] s.data (joinSegs '/' (t :: ts)) (by simp)
        (fun h => hs (mem_of_singletonInfix _ _ (by simpa using h)))
      simp only [joinSegs]
      rw [show s.data ++ '/' :: joinSegs '/' (t :: ts) = s.data ++ ['/'] ++ joinSegs '/' (t :: ts)
        by simp, this, ih (fun x hx => hseg x (List.mem_cons_of_mem _ hx))]
      simp

/-- C10, amended: for a relative entry path `s1/s2/.../sn.py`, with or without a leading
`./`, whose segments contain no `/`, in which the text `.py` occurs only as the final
extension and the text `./` only as the leading prefix, the module name `loadPlugin` derives
is `s1.s2.....sn`. -/
theorem moduleNameOf_relative (pre : String) (segs : List String)
    (hpre : pre = "" ∨ pre = "./")
    (hseg : ∀ s ∈ segs, '/' ∉ s.data)
    (hpy : ¬ ".py".data <:+: joinSegs '/' segs)
    (hdot : ¬ "./".data <:+: joinSegs '/' segs) :
    moduleNameOf ⟨pre.data ++ joinSegs '/' segs ++ ".py".data⟩ = ⟨joinSegs '.' segs⟩ := by
  have hpy' : ¬ ['.', 'p', 'y'] <:+: joinSegs '/' segs := hpy
  have hdot' : ¬ ['.', '/'] <:+: joinSegs '/' segs := hdot
  have h1 : ReplaceStr ⟨pre.data ++ joinSegs '/' segs ++ ".py".data⟩ ".py" "" =
      ⟨pre.data ++ joinSegs '/' segs⟩ := by
    apply String.ext
    rw [ReplaceStr_data _ _ _ (by decide)]
    have hno : ¬ ['.', 'p', 'y'] <:+: (pre.data ++ joinSegs '/' segs) ++ ['.', 'p'] := by
      intro h
      have h2 := py_infix_snoc _ h
      rcases hpre with rfl | rfl
      · exact hpy' h2
      · exact hpy' (py_infix_dotslash _ h2)
    have := replaceGo_first ['.', 'p', 'y'] [] (pre.data ++ joinSegs '/' segs) [] (by simp) hno
    show replaceGo ['.', 'p', 'y'] [] 0 (pre.data ++ joinSegs '/' segs ++ ['.', 'p', 'y']) = _
    rw [show pre.data ++ joinSegs '/' segs ++ ['.', 'p', 'y'] =
      pre.data ++ joinSegs '/' segs ++ ['.', 'p', 'y'] ++ [] by simp, this]
    simp [replaceGo]
  have h2 : ReplaceStr ⟨pre.data ++ joinSegs '/' segs⟩ "./" "" = ⟨joinSegs '/' segs⟩ := by
    apply String.ext
    rw [ReplaceStr_data _ _ _ (by decide)]
    rcases hpre with rfl | rfl
    · show replaceGo ['.', '/'] [] 0 ([] ++ joinSegs '/' segs) = _
      rw [List.nil_append, replaceGo_noocc _ _ _ hdot']
    · show replaceGo ['.', '/'] [] 0 (['.', '/'] ++ joinSegs '/' segs) = _
      rw [replaceGo_atHead _ _ _ (by simp), replaceGo_noocc _ _ _ hdot']
      rfl
  have h3 : ReplaceStr ⟨joinSegs '/' segs⟩ "/" "." = ⟨joinSegs '.' segs⟩ := by
    apply String.ext
    rw [ReplaceStr_data _ _ _ (by decide)]
    exact replace_seps segs hseg
  rw [moduleNameOf, h1, h2, h3]

/-- C10, amended, at the sample input `./plugins/alpha/main.py`. -/
theorem moduleNameOf_relative_witness :
    moduleNameOf ⟨"./".data ++ joinSegs '/' ["plugins", "alpha", "main"] ++ ".py".data⟩ =
      ⟨joinSegs '.' ["plugins", "alpha", "main"]⟩ :=
  moduleNameOf_relative "./" ["plugins", "alpha", "main"] (Or.inr rfl) (by decide) (by decide)
    (by decide)

/-- C10, refuted: a directory segment that contains the text `.py` loses it, and a directory
segment that ends in `.` is glued to the next one. -/
theorem moduleNameOf_counterexample :
    moduleNameOf "plugins/my.pyplug/main.py" = "plugins.myplug.main" ∧
    moduleNameOf "plugins/my.pyplug/main.py" ≠ "plugins.my.pyplug.main" ∧
    moduleNameOf "plugins/v1./main.py" = "plugins.v1main" ∧
    moduleNameOf "plugins/v1./main.py" ≠ "plugins.v1..main" := by
  decide

/-- C8, refuted: the plugin keeps a directory tree that spells the plugins root again, or
its file name mixes both separators; `getCallingPlugin` does not return `myplugin`. -/
theorem getCallingPlugin_under_root_counterexample :
    getCallingPlugin "/srv/bot/plugins/"
        [⟨"/srv/bot/plugins/" ++ "myplugin" ++ "/" ++ "srv/bot/plugins/mod.py"⟩] =
      Except.ok (some "mypluginmod.py") ∧
    getCallingPlugin "C:\\bot\\plugins\\"
        [⟨"C:\\bot\\plugins\\" ++ "myplugin" ++ "\\" ++ "sub/mod.py"⟩] =
      Except.ok (some "myplugin\\sub") :=
  ⟨rfl, rfl⟩

/-- C8, amended, at the sample input of the specification: the frame of
`myplugin/sub/mod.py` under the plugins root. -/
theorem getCallingPlugin_under_root_witness :
    getCallingPlugin "/srv/bot/plugins/"
        [⟨"/srv/bot/plugins/" ++ "myplugin" ++ String.singleton '/' ++ "sub/mod.py"⟩] =
      Except.ok (some "myplugin") :=
  getCallingPlugin_under_root "/srv/bot/plugins/" "myplugin" "sub/mod.py" '/' []
    (by decide) (by decide) (by decide) (Or.inl rfl) (by decide)

/-- C9, at the failing input: the entry file of the loaded plugin `alpha` is missing.  The
backup step copies nothing but writes an empty entry file; the resume step therefore runs,
removes that file and fails to copy the backup that was never made; `unloadPlugin` logs the
error and returns `false`. -/
theorem unloadPlugin_missing_entry_fails :
    (unloadPlugin calmEnv missingEntryWorld "alpha").1 = false ∧
    (unloadPlugin calmEnv missingEntryWorld "alpha").2.events =
      [Event.removePluginListeners "alpha", Event.removePluginTasks "alpha",
        Event.removePluginCommands "alpha", Event.gilAcquire,
        Event.onDisable (some "plugins.alpha.main") ⟨[], [("beta", "tock")], []⟩,
        Event.fsWrite "plugins/alpha/main.py" "",
        Event.pyReload (some "plugins.alpha.main"),
        Event.fsRemove "plugins/alpha/main.py",
        Event.fsCopy "plugins/alpha/main.py.bak" "plugins/alpha/main.py",
        Event.gilRelease] ∧
    (unloadPlugin calmEnv missingEntryWorld "alpha").2.log.map (fun l => (l.level, l.key)) =
      [(Level.info, "engine.python.plugin.unloading"),
        (Level.error, "engine.python.plugin.unload.exception")] ∧
    (unloadPlugin calmEnv missingEntryWorld "alpha").2.fs "plugins/alpha/main.py" = none ∧
    (unloadPlugin calmEnv missingEntryWorld "alpha").2.fs "plugins/alpha/main.py.bak" = none := by
  decide

/-- C2, at the failing input: `sys.path` is `["lib"]` before the call.  When the import
raises, and likewise when `on_enable` raises, `loadPlugin` returns `false` and the parent
directory of the entry is still on `sys.path`. -/
theorem loadPlugin_failure_leaves_search_root :
    freshWorld.sysPath = ["lib"] ∧
    (loadPlugin importRaisesEnv freshWorld "alpha" "plugins/alpha/main.py").1 = false ∧
    (loadPlugin importRaisesEnv freshWorld "alpha" "plugins/alpha/main.py").2.sysPath =
      ["lib", "plugins/alpha"] ∧
    (loadPlugin enableRaisesEnv freshWorld "alpha" "plugins/alpha/main.py").1 = false ∧
    (loadPlugin enableRaisesEnv freshWorld "alpha" "plugins/alpha/main.py").2.sysPath =
      ["lib", "plugins/alpha"] := by
  decide

/-- C6 at a sample input: `alpha` is not loaded yet and its import raises. -/
theorem loadPlugin_first_import_raises_witness :
    (loadPlugin importRaisesEnv freshWorld "alpha" "plugins/alpha/main.py").1 = false ∧
    (∃ infos, (∀ l ∈ infos, l.level = Level.info) ∧
      (loadPlugin importRaisesEnv freshWorld "alpha" "plugins/alpha/main.py").2.log =
        freshWorld.log ++ infos ++ [⟨Level.error, "engine.python.plugin.load.exception",
          ["alpha", "ModuleNotFoundError: No module named 'requests'"]⟩]) ∧
    (loadPlugin importRaisesEnv freshWorld "alpha" "plugins/alpha/main.py").2.mPluginModules =
      freshWorld.mPluginModules ∧
    (loadPlugin importRaisesEnv freshWorld "alpha" "plugins/alpha/main.py").2.mModuleEntrys =
      freshWorld.mModuleEntrys :=
  loadPlugin_first_import_raises importRaisesEnv freshWorld "alpha" "plugins/alpha/main.py"
    "ModuleNotFoundError: No module named 'requests'" rfl (fun _ => rfl)

/-- C3, amended, at a sample input: the event bus throws. -/
theorem unloadPlugin_retraction_stops_witness :
    (unloadPlugin listenersThrowEnv busyWorld "alpha").1 = false ∧
    (unloadPlugin listenersThrowEnv busyWorld "alpha").2.events =
      busyWorld.events ++ [Event.removePluginListeners "alpha"] ∧
    (unloadPlugin listenersThrowEnv busyWorld "alpha").2.regs = busyWorld.regs :=
  (unloadPlugin_retraction_stops listenersThrowEnv busyWorld "alpha" (Exc.std "bus is down")).1
    (fun _ => rfl)

/-- C4 at a sample input: no collaborator fails while `alpha` is unloaded. -/
theorem unloadPlugin_retracts_before_disable_witness :
    ∃ evs, (unloadPlugin calmEnv busyWorld "alpha").2.events = busyWorld.events ++ evs ∧
      (∃ m r rest, evs = [Event.removePluginListeners "alpha", Event.removePluginTasks "alpha",
          Event.removePluginCommands "alpha", Event.gilAcquire, Event.onDisable m r] ++ rest ∧
        r.free "alpha") ∧
      (unloadPlugin calmEnv busyWorld "alpha").2.regs.free "alpha" := by
  obtain ⟨evs, h1, -, -, -, h5⟩ := unloadPlugin_retracts_before_disable calmEnv busyWorld "alpha"
  exact ⟨evs, h1, h5 (fun _ => rfl) (fun _ => rfl) (fun _ => rfl)⟩

end PythonPluginEngine
